import Mathlib

/-
Shallow embedding of geograpy3's locator module (src/geograpy/locator.py).

Modelling conventions:
- An SQL query-result row of the city lookup view is an association list
  `List (String × String)` from column name to value; `List.lookup` models
  Python dict access (`record[k]` / `k in record`).
- The SQLite database contents and the external pycountry lookup are bundled
  in a `LocEnv` value: the scan only reads them, so an already-populated,
  immutable environment is faithful for the resolution claims.
- Python attribute access on objects that are always constructed (never None)
  is modelled with `Option` so that non-nullness is provable rather than a
  typing triviality.
-/

/-- a country, as built by `Country.fromGeoLite2` / `Country.fromPyCountry`. -/
structure Country where
  name : String
  iso : String
deriving DecidableEq

/-- a region (subdivision), as built by `Region.fromGeoLite2`. -/
structure Region where
  name : String
  iso : String
deriving DecidableEq

/-- a single city. `region` and `country` are `Option` so that the claim that
they are always non-null for cities produced by the locator is a theorem, not
a typing artifact. `population` and `gdp` are the raw column values set by
`City.setValue` (None when the column is absent from the record). -/
structure City where
  name : String
  population : Option String
  gdp : Option String
  region : Option Region
  country : Option Country
deriving DecidableEq

/-- a pycountry country record (external collaborator of `Locator.getCountry`). -/
structure PCountry where
  name : String
  alpha_2 : String
deriving DecidableEq

/-- `City.setValue`: `record[name] if name in record else None`. -/
def City.setValue (record : List (String × String)) (name : String) : Option String :=
  List.lookup name record

/-- Python `record[k]` for a key the SQL view always provides
(`name`, `regionName`, ...). On a record that does carry the key this equals
the stored value; the `""` default is never reached for rows coming out of
the lookup view, which selects exactly these columns. -/
def reqField (record : List (String × String)) (name : String) : String :=
  (List.lookup name record).getD ""

/-- `Region.fromGeoLite2`. -/
def Region.fromGeoLite2 (record : List (String × String)) : Region :=
  ⟨reqField record "regionName", reqField record "regionIsoCode"⟩

/-- `Country.fromGeoLite2`. -/
def Country.fromGeoLite2 (record : List (String × String)) : Country :=
  ⟨reqField record "countryName", reqField record "countryIsoCode"⟩

/-- `Country.fromPyCountry`. -/
def Country.fromPyCountry (pcountry : PCountry) : Country :=
  ⟨pcountry.name, pcountry.alpha_2⟩

/-- `City.fromGeoLite2`: name from the record, population/gdp via `setValue`,
region and country always constructed (hence `some`). -/
def City.fromGeoLite2 (record : List (String × String)) : City :=
  { name := reqField record "name"
    population := City.setValue record "population"
    gdp := City.setValue record "gdp"
    region := some (Region.fromGeoLite2 record)
    country := some (Country.fromGeoLite2 record) }

/-- the environment a `Locator` instance queries: the populated SQLite tables
(`prefixes`, `ambiguous`, the city lookup view rows) together with the
external pycountry lookups and the misspelling-correction configuration. -/
structure LocEnv where
  prefixTable : List (String × Nat)
  ambiguousTable : List String
  cityRows : List (List (String × String))
  byAlpha2 : String → Option PCountry
  byName : String → Option PCountry
  errorDict : List (String × String × String)
  correctMisspelling : Bool

/-- `Locator.isPrefix`: `SELECT count from prefixes where prefix=? and level=?`
returns at least one row. -/
def isPrefixAtLevel (env : LocEnv) (name : String) (level : Nat) : Bool :=
  env.prefixTable.any (fun p => p.1 == name && p.2 == level)

/-- `Locator.isAmbiguousPrefix`: `select name from ambiguous where name=?`
returns at least one row. -/
def isAmbiguousPrefixName (env : LocEnv) (name : String) : Bool :=
  env.ambiguousTable.any (fun n => n == name)

/-- one character of the class `[0-9A-Z]`. -/
def isISOChar (c : Char) : Bool :=
  (decide (48 ≤ c.toNat) && decide (c.toNat ≤ 57)) ||
  (decide (65 ≤ c.toNat) && decide (c.toNat ≤ 90))

/-- the character sequence that Python's `re.search(r"^...$", s)` effectively
anchors on: `$` (without re.MULTILINE) matches at the end of the string or
just before one newline at the end of the string, so one trailing newline is
tolerated. -/
def regexTarget (s : String) : List Char :=
  if s.toList.getLast? = some (Char.ofNat 10) then s.toList.dropLast else s.toList

/-- `Locator.isISO`: `re.search(r"^[0-9A-Z]{1,3}$", s) is not None`. -/
def isISO (s : String) : Bool :=
  let t := regexTarget s
  decide (1 ≤ t.length) && decide (t.length ≤ 3) && t.all isISOChar

/-- Modelled from the spec: the helper `remove_non_ascii` (geograpy.utils) is
not part of src; per the spec it ASCII-normalizes a string, modelled as
dropping every non-ASCII character. -/
def remove_non_ascii (s : String) : String :=
  String.mk (s.toList.filter (fun c => decide (c.toNat < 128)))

/-- Python's substring operator `small in big` on strings. -/
def strContains (small : List Char) : List Char → Bool
  | [] => small.isEmpty
  | b :: bs => small.isPrefixOf (b :: bs) || strContains small bs

/-- `Locator.correct_country_misspelling`: scan the rows of
data/ISO3166ErrorDictionary.csv (modelled as the `table` argument, rows of
(variant, iso, canonicalName)); the Python test `name in remove_non_ascii(row[0])`
is a substring test of `name` inside the ASCII-normalized variant; the first
matching row's third column is returned, otherwise the name unchanged. -/
def correct_country_misspelling (table : List (String × String × String))
    (name : String) : String :=
  match table with
  | [] => name
  | row :: rest =>
    if strContains name.toList (remove_non_ascii row.1).toList then row.2.2
    else correct_country_misspelling rest name

/-- the claim's reading of misspelling correction, written from the spec's
words for comparison with `correct_country_misspelling`: the ASCII-normalized
input must equal a variant exactly. -/
def spec_correct_country_misspelling (table : List (String × String × String))
    (name : String) : String :=
  match table with
  | [] => name
  | row :: rest =>
    if remove_non_ascii name = row.1 then row.2.2
    else spec_correct_country_misspelling rest name

/-- the claim's reading of the ISO shape, written from the spec's words for
comparison with `isISO`: the string itself consists of 1 to 3 characters of
the class `[0-9A-Z]`. -/
def specISOShape (s : String) : Bool :=
  decide (1 ≤ s.toList.length) && decide (s.toList.length ≤ 3) &&
    s.toList.all isISOChar

/-- `Locator.getCountry`: ISO fast path through the alpha_2 code lookup,
otherwise optional misspelling correction followed by the name lookup. -/
def getCountry (env : LocEnv) (name : String) : Option Country :=
  if isISO name then (env.byAlpha2 name).map Country.fromPyCountry
  else
    (env.byName (if env.correctMisspelling
      then correct_country_misspelling env.errorDict name
      else name)).map Country.fromPyCountry

/-- `Locator.places_by_name`: `SELECT * FROM <view> WHERE <columnName> = (?)`. -/
def places_by_name (env : LocEnv) (placeName columnName : String) :
    List (List (String × String)) :=
  env.cityRows.filter (fun r => List.lookup columnName r == some placeName)

/-- `Locator.cities_for_name`. -/
def cities_for_name (env : LocEnv) (cityName : String) : List City :=
  (places_by_name env cityName "name").map City.fromGeoLite2

/-- `Locator.regions_for_name`: ISO shape routes through the regionIsoCode
column, otherwise the regionName column. -/
def regions_for_name (env : LocEnv) (region_name : String) : List Region :=
  if isISO region_name then
    (places_by_name env region_name "regionIsoCode").map Region.fromGeoLite2
  else
    (places_by_name env region_name "regionName").map Region.fromGeoLite2

/-- `city.country.iso` as an optional value (the source never reaches the
attribute access with a missing country for cities built by fromGeoLite2). -/
def City.countryIso (c : City) : Option String := c.country.map Country.iso

/-- `city.region.iso` as an optional value. -/
def City.regionIso (c : City) : Option String := c.region.map Region.iso

/-- `city.region.name` as an optional value. -/
def City.regionNameOf (c : City) : Option String := c.region.map Region.name

/-- the first loop of `Locator.disambiguate`: first city (in scan order)
whose `country.iso` equals the given iso. -/
def firstCountryMatch (iso : String) : List City → Option City
  | [] => none
  | c :: cs => if c.countryIso = some iso then some c else firstCountryMatch iso cs

/-- the inner loop of the region rule of `Locator.disambiguate`: first city
with `city.region.iso == region.iso and not city.region.name == city.name`. -/
def innerCityScan (riso : String) : List City → Option City
  | [] => none
  | c :: cs =>
    if c.regionIso = some riso ∧ ¬c.regionNameOf = some c.name then some c
    else innerCityScan riso cs

/-- the outer loop of the region rule of `Locator.disambiguate`: for each
region in order, scan the cities; a hit overwrites `foundCity`; the outer
loop breaks as soon as `foundCity` is non-None (also when it was already
non-None on entry from the country rule). -/
def regionLoop (found : Option City) (cities : List City) :
    List Region → Option City
  | [] => found
  | r :: rs =>
    match innerCityScan r.iso cities with
    | some c => some c
    | none => if found.isSome then found else regionLoop found cities rs

/-- `Locator.disambiguate`: a single city is returned unconditionally;
otherwise the country loop runs (when >1 cities and a country), then —
not guarded by the country loop's outcome — the region loop runs
(when >1 cities and at least one region) starting from the country loop's
pick and possibly overwriting it. -/
def disambiguate (country : Option Country) (regions : List Region)
    (cities : List City) : Option City :=
  if cities.length = 1 then cities.head?
  else
    let found1 : Option City :=
      if 1 < cities.length then
        match country with
        | some co => firstCountryMatch co.iso cities
        | none => none
      else none
    if 1 < cities.length ∧ 0 < regions.length then regionLoop found1 cities regions
    else found1

/-- the state carried across the token scan of `Locator.locate`:
country / cities / regions accumulators, the level counter and the pending
prefix text (the source's local variable `prefix`, renamed `prefixStr`). -/
structure ScanState where
  country : Option Country
  cities : List City
  regions : List Region
  level : Nat
  prefixStr : String
deriving DecidableEq

/-- the initial scan state of `Locator.locate`. -/
def initState : ScanState := ⟨none, [], [], 1, ""⟩

/-- one iteration of the token loop of `Locator.locate`, in source order:
the prefix test on `prefix+place` at the current level; on failure the
pending prefix is reset to the empty string BEFORE `checkPlace=prefix+place`
is computed; on success the ambiguity test runs on the (unchanged) candidate,
the level advances and the prefix is extended with a trailing space; the
lookups run when the candidate was not a prefix or was an ambiguous one. -/
def locateStep (env : LocEnv) (s : ScanState) (place : String) : ScanState :=
  let isP := isPrefixAtLevel env (s.prefixStr ++ place) s.level
  let prefixReset := if isP then s.prefixStr else ""
  let checkPlace := prefixReset ++ place
  let isAmb := if isP then isAmbiguousPrefixName env (s.prefixStr ++ place) else false
  let level2 := if isP then s.level + 1 else s.level
  let prefix2 := if isP then s.prefixStr ++ place ++ " " else prefixReset
  if !isP || isAmb then
    let foundCountry := getCountry env checkPlace
    { country := if foundCountry.isSome then foundCountry else s.country
      cities := s.cities ++ cities_for_name env checkPlace
      regions := s.regions ++ regions_for_name env checkPlace
      level := level2
      prefixStr := prefix2 }
  else
    { s with level := level2, prefixStr := prefix2 }

/-- the candidate string `checkPlace` actually used for the lookups of an
iteration of `Locator.locate`: the pending prefix AFTER the reset decision,
concatenated with the token. -/
def checkPlaceAt (env : LocEnv) (s : ScanState) (place : String) : String :=
  (if isPrefixAtLevel env (s.prefixStr ++ place) s.level then s.prefixStr else "")
    ++ place

/-- whether an iteration of the token loop classifies its token as a prefix
continuation (the source's local variable `isPrefix`). -/
def wasPrefixAt (env : LocEnv) (s : ScanState) (place : String) : Bool :=
  isPrefixAtLevel env (s.prefixStr ++ place) s.level

/-- the per-token prefix-continuation classifications of a whole scan,
replayed with the same state evolution as the scan itself. -/
def classifySteps (env : LocEnv) : ScanState → List String → List Bool
  | _, [] => []
  | s, p :: ps => wasPrefixAt env s p :: classifySteps env (locateStep env s p) ps

/-- the whole token scan of `Locator.locate`. -/
def scanPlaces (env : LocEnv) (places : List String) : ScanState :=
  places.foldl (locateStep env) initState

/-- `Locator.locate`: scan the tokens, then disambiguate the accumulators.
The `populate_db` self-healing call at the top of the source is modelled by
`LocEnv` being an already-populated, read-only environment. -/
def locate (env : LocEnv) (places : List String) : Option City :=
  let s := scanPlaces env places
  disambiguate s.country s.regions s.cities

/-- the state of the locs.db database, reduced to what `db_has_data` reads in
the default (non-wikidata) configuration: the row count of the cities table. -/
structure DBState where
  citiesRowCount : Nat
deriving DecidableEq

/-- `Locator.db_has_data` with `useWikiData=False`: the cities table has more
than 10000 records. -/
def db_has_data (s : DBState) : Bool :=
  decide (10000 < s.citiesRowCount)

/-- `Locator.populate_db`: run the bulk ingestion (abstracted as the function
`ingest`, covering populate_Cities / populate_PrefixTree /
populate_PrefixAmbiguities) exactly when the health check fails or `force`
is set. -/
def populate_db (ingest : DBState → DBState) (force : Bool) (s : DBState) :
    DBState :=
  if !db_has_data s || force then ingest s else s

/-- the column list of the GeoLite2CityLookup view, from its CREATE VIEW DDL
in `Locator.populate_Cities`. -/
def geoLite2ViewColumns : List String :=
  ["name", "regionName", "regionIsoCode", "countryName", "countryIsoCode"]

/-- a row shaped like a GeoLite2CityLookup view result: exactly the five view
columns, in order. -/
def isGeoLite2ViewRow (r : List (String × String)) : Prop :=
  r.map Prod.fst = geoLite2ViewColumns

/-- a concrete Austria country value for evaluating the disambiguation rules. -/
def coDemoAustria : Country := ⟨"Austria", "AT"⟩

/-- a concrete Texas region value. -/
def rDemoTexas : Region := ⟨"Texas", "TX"⟩

/-- a concrete Vienna (Austria) city value. -/
def cDemoViennaAT : City :=
  ⟨"Vienna", none, none, some ⟨"Vienna", "9"⟩, some ⟨"Austria", "AT"⟩⟩

/-- a concrete Vienna (Texas, US) city value. -/
def cDemoViennaUS : City :=
  ⟨"Vienna", none, none, some ⟨"Texas", "TX"⟩, some ⟨"United States", "US"⟩⟩

/-- a concrete GeoLite2CityLookup view row for Berlin. -/
def demoBerlinRow : List (String × String) :=
  [("name", "Berlin"), ("regionName", "Berlin"), ("regionIsoCode", "BE"),
   ("countryName", "Germany"), ("countryIsoCode", "DE")]

/-- a concrete GeoLite2CityLookup view row for a fictitious city "San Berlin". -/
def demoSanBerlinRow : List (String × String) :=
  [("name", "San Berlin"), ("regionName", "Utopia"), ("regionIsoCode", "UT"),
   ("countryName", "Germany"), ("countryIsoCode", "DE")]

/-- a tiny environment whose prefixes table holds "San" at level 1 and whose
city view holds a "San Berlin" and a "Berlin" row. -/
def demoEnvSan : LocEnv :=
  { prefixTable := [("San", 1)]
    ambiguousTable := []
    cityRows := [demoSanBerlinRow, demoBerlinRow]
    byAlpha2 := fun _ => none
    byName := fun _ => none
    errorDict := []
    correctMisspelling := false }

/-- a tiny environment whose city view holds exactly the Berlin row. -/
def demoEnvCity : LocEnv :=
  { prefixTable := []
    ambiguousTable := []
    cityRows := [demoBerlinRow]
    byAlpha2 := fun _ => none
    byName := fun _ => none
    errorDict := []
    correctMisspelling := false }

/-- the city built from the Berlin view row. -/
def demoBerlinCity : City := City.fromGeoLite2 demoBerlinRow

/-- a one-row misspelling table. -/
def demoMisspellTable : List (String × String × String) :=
  [("Brasil", "BR", "Brazil")]

/-- a tiny environment with misspelling correction switched on. -/
def demoEnvMiss : LocEnv :=
  { prefixTable := []
    ambiguousTable := []
    cityRows := []
    byAlpha2 := fun _ => none
    byName := fun _ => none
    errorDict := demoMisspellTable
    correctMisspelling := true }

/-- a concrete bulk-ingestion function for exercising `populate_db`. -/
def demoIngest : DBState → DBState := fun _ => ⟨200000⟩

/-- a concrete database state that passes the health check. -/
def demoDB : DBState := ⟨120000⟩

/-! Helper lemmas shared by the claim theorems. -/

/-- the lookup branch of `locateStep`: when the candidate is not a prefix or
is an ambiguous one, the accumulators are extended with the lookups on the
iteration's `checkPlaceAt` string. -/
theorem locateStep_lookup (env : LocEnv) (s : ScanState) (p : String)
    (h : isPrefixAtLevel env (s.prefixStr ++ p) s.level = false ∨
      isAmbiguousPrefixName env (s.prefixStr ++ p) = true) :
    locateStep env s p =
      { country := if (getCountry env (checkPlaceAt env s p)).isSome
          then getCountry env (checkPlaceAt env s p) else s.country
        cities := s.cities ++ cities_for_name env (checkPlaceAt env s p)
        regions := s.regions ++ regions_for_name env (checkPlaceAt env s p)
        level := if isPrefixAtLevel env (s.prefixStr ++ p) s.level
          then s.level + 1 else s.level
        prefixStr := if isPrefixAtLevel env (s.prefixStr ++ p) s.level
          then s.prefixStr ++ p ++ " " else "" } := by
  rcases h with h | h
  · simp [locateStep, checkPlaceAt, h]
  · cases hP : isPrefixAtLevel env (s.prefixStr ++ p) s.level <;>
      simp [locateStep, checkPlaceAt, hP, h]

/-- the no-lookup branch of `locateStep`: a non-ambiguous prefix continuation
only advances the level and extends the pending prefix. -/
theorem locateStep_noLookup (env : LocEnv) (s : ScanState) (p : String)
    (h1 : isPrefixAtLevel env (s.prefixStr ++ p) s.level = true)
    (h2 : isAmbiguousPrefixName env (s.prefixStr ++ p) = false) :
    locateStep env s p =
      { s with level := s.level + 1, prefixStr := s.prefixStr ++ p ++ " " } := by
  simp [locateStep, h1, h2]

/-- the level field after one step. -/
theorem locateStep_level (env : LocEnv) (s : ScanState) (p : String) :
    (locateStep env s p).level =
      s.level + (if wasPrefixAt env s p then 1 else 0) := by
  cases hP : isPrefixAtLevel env (s.prefixStr ++ p) s.level <;>
    cases hA : isAmbiguousPrefixName env (s.prefixStr ++ p) <;>
      simp [locateStep, wasPrefixAt, hP, hA]

/-- the level after folding the scan over a token list. -/
theorem foldl_level (env : LocEnv) :
    ∀ (ts : List String) (s : ScanState),
      (List.foldl (locateStep env) s ts).level =
        s.level + (classifySteps env s ts).count true := by
  intro ts
  induction ts with
  | nil => intro s; simp [classifySteps]
  | cons p ps ih =>
    intro s
    have hstep := locateStep_level env s p
    have hcount : (classifySteps env s (p :: ps)).count true =
        (classifySteps env (locateStep env s p) ps).count true
          + (if wasPrefixAt env s p then 1 else 0) := by
      cases hW : wasPrefixAt env s p <;> simp [classifySteps, hW, List.count_cons]
    calc (List.foldl (locateStep env) s (p :: ps)).level
        = (List.foldl (locateStep env) (locateStep env s p) ps).level := rfl
      _ = (locateStep env s p).level
            + (classifySteps env (locateStep env s p) ps).count true := ih _
      _ = s.level + (classifySteps env s (p :: ps)).count true := by
          rw [hstep, hcount]; omega

/-- cities produced by `cities_for_name` come from rows of the city view. -/
theorem mem_cities_for_name {env : LocEnv} {n : String} {c : City}
    (h : c ∈ cities_for_name env n) :
    ∃ r ∈ env.cityRows, c = City.fromGeoLite2 r := by
  unfold cities_for_name places_by_name at h
  rcases List.mem_map.mp h with ⟨r, hr, hc⟩
  exact ⟨r, (List.mem_filter.mp hr).1, hc.symm⟩

/-- one scan step only adds cities built from rows of the city view. -/
theorem locateStep_cities_mem {env : LocEnv} {s : ScanState} {p : String}
    {c : City} (h : c ∈ (locateStep env s p).cities) :
    c ∈ s.cities ∨ ∃ r ∈ env.cityRows, c = City.fromGeoLite2 r := by
  cases hP : isPrefixAtLevel env (s.prefixStr ++ p) s.level
  · simp only [locateStep, hP] at h
    simp at h
    rcases h with h | h
    · exact Or.inl h
    · exact Or.inr (mem_cities_for_name h)
  · cases hA : isAmbiguousPrefixName env (s.prefixStr ++ p)
    · simp [locateStep, hP, hA] at h
      exact Or.inl h
    · simp [locateStep, hP, hA] at h
      rcases h with h | h
      · exact Or.inl h
      · exact Or.inr (mem_cities_for_name h)

/-- the whole scan only accumulates cities built from rows of the city view. -/
theorem foldl_cities_mem (env : LocEnv) :
    ∀ (ts : List String) (s : ScanState) (c : City),
      c ∈ (List.foldl (locateStep env) s ts).cities →
      c ∈ s.cities ∨ ∃ r ∈ env.cityRows, c = City.fromGeoLite2 r := by
  intro ts
  induction ts with
  | nil => intro s c h; exact Or.inl h
  | cons p ps ih =>
    intro s c h
    rcases ih (locateStep env s p) c h with h2 | h2
    · exact locateStep_cities_mem h2
    · exact Or.inr h2

/-- the country loop returns a member of the city list. -/
theorem firstCountryMatch_mem :
    ∀ {iso : String} {cs : List City} {c : City},
      firstCountryMatch iso cs = some c → c ∈ cs := by
  intro iso cs
  induction cs with
  | nil => intro c h; simp [firstCountryMatch] at h
  | cons c0 cs ih =>
    intro c h
    unfold firstCountryMatch at h
    split at h
    · exact (Option.some_inj.mp h) ▸ List.mem_cons_self c0 cs
    · exact List.mem_cons_of_mem c0 (ih h)

/-- the inner region-rule loop returns a member of the city list. -/
theorem innerCityScan_mem :
    ∀ {riso : String} {cs : List City} {c : City},
      innerCityScan riso cs = some c → c ∈ cs := by
  intro riso cs
  induction cs with
  | nil => intro c h; simp [innerCityScan] at h
  | cons c0 cs ih =>
    intro c h
    unfold innerCityScan at h
    split at h
    · exact (Option.some_inj.mp h) ▸ List.mem_cons_self c0 cs
    · exact List.mem_cons_of_mem c0 (ih h)

/-- the outer region-rule loop returns a member of the city list or its
incoming pick. -/
theorem regionLoop_mem :
    ∀ {rs : List Region} {found : Option City} {cs : List City} {c : City},
      regionLoop found cs rs = some c → c ∈ cs ∨ found = some c := by
  intro rs
  induction rs with
  | nil => intro found cs c h; exact Or.inr h
  | cons r rs ih =>
    intro found cs c h
    unfold regionLoop at h
    split at h
    · rename_i c2 hscan
      have hc : c2 = c := Option.some_inj.mp h
      exact Or.inl (hc ▸ innerCityScan_mem hscan)
    · split at h
      · exact Or.inr h
      · exact ih h

/-- `disambiguate` returns a member of the city list. -/
theorem disambiguate_mem {co : Option Country} {rs : List Region}
    {cs : List City} {c : City} (h : disambiguate co rs cs = some c) :
    c ∈ cs := by
  have hfound1 :
      (if 1 < cs.length then
        (match co with
          | some co' => firstCountryMatch co'.iso cs
          | none => none)
      else none) = some c → c ∈ cs := by
    intro hv
    split at hv
    · split at hv
      · exact firstCountryMatch_mem hv
      · simp at hv
    · simp at hv
  simp only [disambiguate] at h
  split at h
  · cases cs with
    | nil => simp at h
    | cons c0 t => exact (Option.some_inj.mp h) ▸ List.mem_cons_self c0 t
  · split at h
    · rcases regionLoop_mem h with h2 | h2
      · exact h2
      · exact hfound1 h2
    · exact hfound1 h

/-! Claim theorems. -/

/-- Claim C1 as stated is false: with more than one accumulated city, a
resolved country, and a city matching the country's iso, the region-based
rule is not skipped (the source has no elif) and can override the country
pick. Here the country rule picks the Austrian Vienna (the first and only
city whose country iso is AT), yet `disambiguate` returns the Texan Vienna
because the accumulated Texas region matches it afterwards. -/
theorem C1_counterexample :
    disambiguate (some coDemoAustria) [rDemoTexas] [cDemoViennaAT, cDemoViennaUS]
      = some cDemoViennaUS ∧
    cDemoViennaAT.countryIso = some coDemoAustria.iso ∧
    cDemoViennaUS.countryIso ≠ some coDemoAustria.iso ∧
    firstCountryMatch coDemoAustria.iso [cDemoViennaAT, cDemoViennaUS]
      = some cDemoViennaAT ∧
    cDemoViennaUS ≠ cDemoViennaAT := by decide

/-- C1 (amended): with more than one accumulated city, a resolved country and
a first city `c` matching the country's iso in scan order, the result is `c`
only when no region was accumulated; when regions were accumulated the
region-based rule still runs and overrides the choice with the first city
matching the first region (equal region iso, region name differing from the
city name) whenever such a city exists, keeping `c` otherwise. -/
theorem C1_country_tiebreak (co : Country) (regions : List Region)
    (cities : List City) (c : City)
    (hlen : 1 < cities.length)
    (hfir : firstCountryMatch co.iso cities = some c) :
    disambiguate (some co) regions cities =
      match regions with
      | [] => some c
      | r :: _ =>
        match innerCityScan r.iso cities with
        | some c2 => some c2
        | none => some c := by
  have hne : ¬cities.length = 1 := by omega
  cases regions with
  | nil =>
    simp only [disambiguate, hfir, if_pos hlen, if_neg hne]
    simp
  | cons r rs =>
    simp only [disambiguate, hfir, if_pos hlen, if_neg hne]
    have hcond : 1 < cities.length ∧ 0 < (r :: rs).length := ⟨hlen, by simp⟩
    rw [if_pos hcond]
    unfold regionLoop
    cases h2 : innerCityScan r.iso cities <;> simp [h2]

/-- witness for C1_country_tiebreak at the concrete Vienna example. -/
theorem C1_country_tiebreak_witness :
    1 < ([cDemoViennaAT, cDemoViennaUS] : List City).length ∧
    firstCountryMatch coDemoAustria.iso [cDemoViennaAT, cDemoViennaUS]
      = some cDemoViennaAT ∧
    disambiguate (some coDemoAustria) [rDemoTexas] [cDemoViennaAT, cDemoViennaUS]
      = match innerCityScan rDemoTexas.iso [cDemoViennaAT, cDemoViennaUS] with
        | some c2 => some c2
        | none => some cDemoViennaAT := by
  refine ⟨by decide, by decide, ?_⟩
  exact C1_country_tiebreak coDemoAustria [rDemoTexas]
    [cDemoViennaAT, cDemoViennaUS] cDemoViennaAT (by decide) (by decide)

/-- Claim C2 as stated is false: `checkPlace` is computed AFTER the pending
prefix has been reset on a non-prefix token, so it is not the pending prefix
concatenated with the token. After consuming "San" the pending prefix is
"San "; on the non-prefix token "Berlin" the iteration's candidate is
"Berlin", not "San Berlin", and the city lookup of that iteration finds the
row named "Berlin" (not the existing row named "San Berlin"). -/
theorem C2_counterexample :
    (locateStep demoEnvSan initState "San").prefixStr = "San " ∧
    checkPlaceAt demoEnvSan (locateStep demoEnvSan initState "San") "Berlin"
      = "Berlin" ∧
    ("Berlin" : String) ≠ "San " ++ "Berlin" ∧
    (locateStep demoEnvSan (locateStep demoEnvSan initState "San") "Berlin").cities
      = [City.fromGeoLite2 demoBerlinRow] ∧
    cities_for_name demoEnvSan "San Berlin" = [City.fromGeoLite2 demoSanBerlinRow] ∧
    City.fromGeoLite2 demoBerlinRow ≠ City.fromGeoLite2 demoSanBerlinRow := by
  decide

/-- C2 (amended): in every iteration the candidate string used for the
lookups equals the pending prefix concatenated with the current token only
on a prefix-continuation token (where it is computed before the prefix is
extended); on a non-prefix token the pending prefix is reset to empty first,
so the candidate is the token alone; the iteration's lookups use exactly this
candidate string. -/
theorem C2_checkPlace (env : LocEnv) (s : ScanState) (p : String) :
    (isPrefixAtLevel env (s.prefixStr ++ p) s.level = true →
      checkPlaceAt env s p = s.prefixStr ++ p) ∧
    (isPrefixAtLevel env (s.prefixStr ++ p) s.level = false →
      checkPlaceAt env s p = p) ∧
    (isPrefixAtLevel env (s.prefixStr ++ p) s.level = false ∨
        isAmbiguousPrefixName env (s.prefixStr ++ p) = true →
      (locateStep env s p).cities
          = s.cities ++ cities_for_name env (checkPlaceAt env s p) ∧
      (locateStep env s p).regions
          = s.regions ++ regions_for_name env (checkPlaceAt env s p)) := by
  refine ⟨?_, ?_, ?_⟩
  · intro h
    simp [checkPlaceAt, h]
  · intro h
    show (if isPrefixAtLevel env (s.prefixStr ++ p) s.level
      then s.prefixStr else "") ++ p = p
    rw [h]
    rfl
  · intro h
    rw [locateStep_lookup env s p h]
    exact ⟨rfl, rfl⟩

/-- witness for C2_checkPlace: the "San" then "Berlin" scan. -/
theorem C2_checkPlace_witness :
    checkPlaceAt demoEnvSan (locateStep demoEnvSan initState "San") "Berlin"
      = "Berlin" ∧
    (locateStep demoEnvSan (locateStep demoEnvSan initState "San") "Berlin").cities
      = (locateStep demoEnvSan initState "San").cities ++
        cities_for_name demoEnvSan
          (checkPlaceAt demoEnvSan (locateStep demoEnvSan initState "San") "Berlin") := by
  have h := C2_checkPlace demoEnvSan (locateStep demoEnvSan initState "San") "Berlin"
  exact ⟨h.2.1 (by decide), (h.2.2 (Or.inl (by decide))).1⟩

/-- Claim C3 as stated is false: the source's row test is
`name in remove_non_ascii(row[0])`, a Python substring test of the raw input
inside the ASCII-normalized variant, not a match of the (normalized) input
against the variant. "rasil" equals no variant of the one-row table (its only
variant is "Brasil", unchanged by ASCII normalization), so under the claim it
would be returned unchanged, yet the source substitutes "Brazil" because
"rasil" occurs inside "Brasil". -/
theorem C3_counterexample :
    correct_country_misspelling demoMisspellTable "rasil" = "Brazil" ∧
    spec_correct_country_misspelling demoMisspellTable "rasil" = "rasil" ∧
    remove_non_ascii "rasil" = "rasil" ∧
    remove_non_ascii "Brasil" = "Brasil" ∧
    ("rasil" : String) ≠ "Brasil" ∧
    ("Brazil" : String) ≠ "rasil" := by decide

/-- C3 (amended): the static table is scanned in order and the first row
whose ASCII-normalized misspelled-variant contains the input as a substring
has its canonical name substituted, the input being returned unchanged when
no row matches; with misspelling correction enabled the substitution happens
before the country name lookup (the non-ISO path of getCountry). -/
theorem C3_misspelling_substitution :
    (∀ (table : List (String × String × String)) (name : String),
      correct_country_misspelling table name =
        match table.find?
            (fun row => strContains name.toList (remove_non_ascii row.1).toList) with
        | some row => row.2.2
        | none => name) ∧
    (∀ (env : LocEnv) (name : String), isISO name = false →
      env.correctMisspelling = true →
      getCountry env name =
        (env.byName (correct_country_misspelling env.errorDict name)).map
          Country.fromPyCountry) := by
  constructor
  · intro table name
    induction table with
    | nil => rfl
    | cons row rest ih =>
      unfold correct_country_misspelling
      cases hrow : strContains name.toList (remove_non_ascii row.1).toList
      · have hf : List.find?
            (fun row => strContains name.toList (remove_non_ascii row.1).toList)
            (row :: rest)
            = List.find?
              (fun row => strContains name.toList (remove_non_ascii row.1).toList)
              rest :=
          List.find?_cons_of_neg rest (by simpa using hrow)
        rw [hf]
        simpa [hrow] using ih
      · have hf : List.find?
            (fun row => strContains name.toList (remove_non_ascii row.1).toList)
            (row :: rest)
            = some row :=
          List.find?_cons_of_pos rest (by simpa using hrow)
        rw [hf]
        simp [hrow]
  · intro env name h1 h2
    simp [getCountry, h1, h2]

/-- witness for C3_misspelling_substitution at the one-row table and the
misspelling-corrected environment. -/
theorem C3_misspelling_substitution_witness :
    correct_country_misspelling demoMisspellTable "rasil" =
      (match demoMisspellTable.find?
          (fun row => strContains "rasil".toList (remove_non_ascii row.1).toList) with
       | some row => row.2.2
       | none => "rasil") ∧
    isISO "rasil" = false ∧
    demoEnvMiss.correctMisspelling = true ∧
    getCountry demoEnvMiss "rasil" =
      (demoEnvMiss.byName (correct_country_misspelling demoEnvMiss.errorDict "rasil")).map
        Country.fromPyCountry := by
  have h := C3_misspelling_substitution
  exact ⟨h.1 demoMisspellTable "rasil", by decide, rfl,
    h.2 demoEnvMiss "rasil" (by decide) rfl⟩

/-- C4 (confirmed): the lookups of an iteration are performed exactly when
the candidate is not a known prefix at the current level, or it is one whose
exact text is also flagged ambiguous; a non-ambiguous prefix continuation
leaves all three accumulators untouched and only advances level and the
pending prefix. -/
theorem C4_lookup_condition (env : LocEnv) (s : ScanState) (p : String) :
    (isPrefixAtLevel env (s.prefixStr ++ p) s.level = false ∨
        (isPrefixAtLevel env (s.prefixStr ++ p) s.level = true ∧
          isAmbiguousPrefixName env (s.prefixStr ++ p) = true) →
      locateStep env s p =
        { country := if (getCountry env (checkPlaceAt env s p)).isSome
            then getCountry env (checkPlaceAt env s p) else s.country
          cities := s.cities ++ cities_for_name env (checkPlaceAt env s p)
          regions := s.regions ++ regions_for_name env (checkPlaceAt env s p)
          level := if isPrefixAtLevel env (s.prefixStr ++ p) s.level
            then s.level + 1 else s.level
          prefixStr := if isPrefixAtLevel env (s.prefixStr ++ p) s.level
            then s.prefixStr ++ p ++ " " else "" }) ∧
    (isPrefixAtLevel env (s.prefixStr ++ p) s.level = true ∧
        isAmbiguousPrefixName env (s.prefixStr ++ p) = false →
      locateStep env s p =
        { s with level := s.level + 1, prefixStr := s.prefixStr ++ p ++ " " }) := by
  constructor
  · intro h
    refine locateStep_lookup env s p ?_
    rcases h with h | ⟨_, h⟩
    · exact Or.inl h
    · exact Or.inr h
  · intro h
    exact locateStep_noLookup env s p h.1 h.2

/-- witness for C4_lookup_condition: in the San environment the token "San"
is a non-ambiguous prefix continuation (no lookup, only level and prefix
move), while the token "Berlin" from the initial state is not a prefix and
the lookup state is produced. -/
theorem C4_lookup_condition_witness :
    locateStep demoEnvSan initState "San"
      = { initState with level := 2, prefixStr := "San " } ∧
    locateStep demoEnvSan initState "Berlin"
      = { country := if (getCountry demoEnvSan (checkPlaceAt demoEnvSan initState "Berlin")).isSome
            then getCountry demoEnvSan (checkPlaceAt demoEnvSan initState "Berlin")
            else initState.country
          cities := initState.cities ++
            cities_for_name demoEnvSan (checkPlaceAt demoEnvSan initState "Berlin")
          regions := initState.regions ++
            regions_for_name demoEnvSan (checkPlaceAt demoEnvSan initState "Berlin")
          level := if isPrefixAtLevel demoEnvSan (initState.prefixStr ++ "Berlin") initState.level
            then initState.level + 1 else initState.level
          prefixStr := if isPrefixAtLevel demoEnvSan (initState.prefixStr ++ "Berlin") initState.level
            then initState.prefixStr ++ "Berlin" ++ " " else "" } := by
  constructor
  · have h := (C4_lookup_condition demoEnvSan initState "San").2 ⟨by decide, by decide⟩
    rw [h]
    decide
  · exact (C4_lookup_condition demoEnvSan initState "Berlin").1 (Or.inl (by decide))

/-- a one-element city list short-circuits `disambiguate` unconditionally. -/
theorem disambiguate_single (country : Option Country) (regions : List Region)
    (c : City) : disambiguate country regions [c] = some c := by
  simp [disambiguate]

/-- C5 (confirmed): whenever the accumulated city list holds exactly one
city, `disambiguate` — and hence `locate` — returns it unconditionally,
whatever the resolved country and accumulated regions are. -/
theorem C5_single_candidate :
    (∀ (country : Option Country) (regions : List Region) (c : City),
      disambiguate country regions [c] = some c) ∧
    (∀ (env : LocEnv) (places : List String) (c : City),
      (scanPlaces env places).cities = [c] → locate env places = some c) := by
  constructor
  · exact disambiguate_single
  · intro env places c h
    simp only [locate]
    rw [h]
    exact disambiguate_single _ _ c

/-- witness for C5_single_candidate: the one-row Berlin environment. -/
theorem C5_single_candidate_witness :
    (scanPlaces demoEnvCity ["Berlin"]).cities = [demoBerlinCity] ∧
    locate demoEnvCity ["Berlin"] = some demoBerlinCity := by
  refine ⟨by decide, ?_⟩
  exact C5_single_candidate.2 demoEnvCity ["Berlin"] demoBerlinCity (by decide)

/-- `populate_db` without force is a no-op on a healthy database. -/
theorem populate_db_noop (ingest : DBState → DBState) (s : DBState)
    (h : db_has_data s = true) : populate_db ingest false s = s := by
  simp [populate_db, h]

/-- C6 (confirmed): `populate_db` without force ingests only when the
row-count health check fails, so a call on a database that already has data
is a no-op, and in two consecutive calls the second is a no-op whenever the
first left `db_has_data` true. -/
theorem C6_populate_idempotent (ingest : DBState → DBState) (s : DBState) :
    (db_has_data s = true → populate_db ingest false s = s) ∧
    (db_has_data (populate_db ingest false s) = true →
      populate_db ingest false (populate_db ingest false s)
        = populate_db ingest false s) := by
  exact ⟨populate_db_noop ingest s, populate_db_noop ingest _⟩

/-- witness for C6_populate_idempotent at a concrete healthy database. -/
theorem C6_populate_idempotent_witness :
    db_has_data demoDB = true ∧
    populate_db demoIngest false demoDB = demoDB ∧
    db_has_data (populate_db demoIngest false demoDB) = true ∧
    populate_db demoIngest false (populate_db demoIngest false demoDB)
      = populate_db demoIngest false demoDB := by
  have h := C6_populate_idempotent demoIngest demoDB
  refine ⟨by decide, h.1 (by decide), ?_, h.2 ?_⟩
  · rw [populate_db_noop demoIngest demoDB (by decide)]
    decide
  · rw [populate_db_noop demoIngest demoDB (by decide)]
    decide

/-- C7 (confirmed): `locate` returns either none or some City whose country
and region are non-null; a not-found outcome is the none value (the
disambiguation returns a member of the accumulator, every member of which
was built by `City.fromGeoLite2`, which always constructs both objects). -/
theorem C7_result_nonnull (env : LocEnv) (places : List String) :
    locate env places = none ∨
    ∃ c : City, locate env places = some c ∧
      c.country.isSome = true ∧ c.region.isSome = true := by
  cases h : locate env places with
  | none => exact Or.inl rfl
  | some c =>
    refine Or.inr ⟨c, rfl, ?_⟩
    simp only [locate] at h
    have hmem : c ∈ (scanPlaces env places).cities := disambiguate_mem h
    have := foldl_cities_mem env places initState c hmem
    rcases this with hin | ⟨r, _, hc⟩
    · simp [initState] at hin
    · subst hc
      exact ⟨rfl, rfl⟩

/-- Claim C8 as stated is false on strings with a trailing newline: Python's
`re.search(r"^[0-9A-Z]{1,3}$", s)` matches "US\n" because `$` (without
re.MULTILINE) also matches just before a newline at the end of the string,
while "US\n" does not consist of 1 to 3 uppercase alphanumeric characters
(its third character is the newline, outside the class). -/
theorem C8_counterexample :
    isISO "US\n" = true ∧
    specISOShape "US\n" = false ∧
    "US\n".toList.length = 3 ∧
    isISOChar (Char.ofNat 10) = false := by decide

/-- C8 (amended): `isISO s` is true exactly when s — after tolerating one
trailing newline, which Python's `$` anchor permits — consists of 1 to 3
characters each an uppercase letter or digit; isISO "US" is true and
isISO "Singapore" is false; `getCountry` and `regions_for_name` route
through the code-lookup path exactly when `isISO` holds, falling back to
the name-lookup path otherwise. -/
theorem C8_isISO_routing :
    (∀ s : String, isISO s = true ↔
      (specISOShape s = true ∨
        (s.toList.getLast? = some (Char.ofNat 10) ∧
          specISOShape (String.mk s.toList.dropLast) = true))) ∧
    isISO "US" = true ∧
    isISO "Singapore" = false ∧
    (∀ (env : LocEnv) (name : String), isISO name = true →
      getCountry env name = (env.byAlpha2 name).map Country.fromPyCountry ∧
      regions_for_name env name =
        (places_by_name env name "regionIsoCode").map Region.fromGeoLite2) ∧
    (∀ (env : LocEnv) (name : String), isISO name = false →
      getCountry env name =
        (env.byName (if env.correctMisspelling
          then correct_country_misspelling env.errorDict name
          else name)).map Country.fromPyCountry ∧
      regions_for_name env name =
        (places_by_name env name "regionName").map Region.fromGeoLite2) := by
  refine ⟨?_, by decide, by decide, ?_, ?_⟩
  · intro s
    by_cases h : s.toList.getLast? = some (Char.ofNat 10)
    · have hmem : Char.ofNat 10 ∈ s.toList := List.mem_of_mem_getLast? h
      have hall : s.toList.all isISOChar = false :=
        List.all_eq_false.mpr ⟨Char.ofNat 10, hmem, by decide⟩
      have h2 : specISOShape s = false := by
        unfold specISOShape
        rw [show s.toList.all isISOChar = false from hall]
        simp
      have hif : regexTarget s = s.toList.dropLast := by
        unfold regexTarget
        rw [if_pos h]
      have h1 : isISO s = specISOShape (String.mk s.toList.dropLast) := by
        show (decide (1 ≤ (regexTarget s).length) &&
            decide ((regexTarget s).length ≤ 3) &&
            (regexTarget s).all isISOChar) = _
        rw [hif]
        rfl
      rw [h1, h2]
      constructor
      · intro hx
        exact Or.inr ⟨h, hx⟩
      · rintro (hc | ⟨_, hx⟩)
        · exact absurd hc (by simp)
        · exact hx
    · have hif : regexTarget s = s.toList := by
        unfold regexTarget
        rw [if_neg h]
      have h1 : isISO s = specISOShape s := by
        show (decide (1 ≤ (regexTarget s).length) &&
            decide ((regexTarget s).length ≤ 3) &&
            (regexTarget s).all isISOChar) = _
        rw [hif]
        rfl
      rw [h1]
      constructor
      · exact fun hx => Or.inl hx
      · rintro (hc | ⟨hc, _⟩)
        · exact hc
        · exact absurd hc h
  · intro env name h
    constructor
    · simp [getCountry, h]
    · simp [regions_for_name, h]
  · intro env name h
    constructor
    · simp [getCountry, h]
    · simp [regions_for_name, h]

/-- witness for C8_isISO_routing: routing at "US" and "Singapore". -/
theorem C8_isISO_routing_witness :
    isISO "US" = true ∧
    getCountry demoEnvCity "US" = (demoEnvCity.byAlpha2 "US").map Country.fromPyCountry ∧
    regions_for_name demoEnvCity "US" =
      (places_by_name demoEnvCity "US" "regionIsoCode").map Region.fromGeoLite2 ∧
    isISO "Singapore" = false ∧
    getCountry demoEnvCity "Singapore" =
      (demoEnvCity.byName (if demoEnvCity.correctMisspelling
        then correct_country_misspelling demoEnvCity.errorDict "Singapore"
        else "Singapore")).map Country.fromPyCountry ∧
    regions_for_name demoEnvCity "Singapore" =
      (places_by_name demoEnvCity "Singapore" "regionName").map Region.fromGeoLite2 := by
  have h := C8_isISO_routing
  have h1 := h.2.2.2.1 demoEnvCity "US" (by decide)
  have h2 := h.2.2.2.2 demoEnvCity "Singapore" (by decide)
  exact ⟨h.2.1, h1.1, h1.2, h.2.2.1, h2.1, h2.2⟩

/-- C9 (confirmed): the level counter never decreases and is never reset;
after any number of tokens it equals 1 plus the number of tokens classified
as prefix continuations, also when the pending prefix was later abandoned. -/
theorem C9_level_monotone (env : LocEnv) (ts : List String) :
    (scanPlaces env ts).level
      = 1 + (classifySteps env initState ts).count true ∧
    (∀ us : List String,
      (scanPlaces env ts).level ≤ (scanPlaces env (ts ++ us)).level) := by
  constructor
  · have h := foldl_level env ts initState
    simpa [scanPlaces, initState] using h
  · intro us
    unfold scanPlaces
    rw [List.foldl_append]
    have h := foldl_level env us (List.foldl (locateStep env) initState ts)
    omega

/-- a lookup on a key absent from a record's columns yields none. -/
theorem lookup_eq_none_of_not_mem {k : String}
    (r : List (String × String)) (h : k ∉ r.map Prod.fst) :
    List.lookup k r = none := by
  induction r with
  | nil => rfl
  | cons a t ih =>
    obtain ⟨a1, a2⟩ := a
    have hfalse : (k == a1) = false := by
      rw [Bool.eq_false_iff]
      intro hk
      exact h (by simp [beq_iff_eq.mp hk])
    simp only [List.lookup, hfalse]
    exact ih (fun hm => h (List.mem_cons_of_mem _ hm))

/-- C10 (confirmed): in the default GeoLite2 configuration every city view
row exposes exactly the five view columns, which include neither population
nor gdp, and `setValue` stores none for an absent column; hence every City
returned by `locate` has null population and gdp. -/
theorem C10_no_population_gdp (env : LocEnv) (places : List String) (c : City)
    (hview : ∀ r ∈ env.cityRows, isGeoLite2ViewRow r)
    (hloc : locate env places = some c) :
    c.population = none ∧ c.gdp = none := by
  simp only [locate] at hloc
  have hmem : c ∈ (scanPlaces env places).cities := disambiguate_mem hloc
  rcases foldl_cities_mem env places initState c hmem with hin | ⟨r, hr, hc⟩
  · simp [initState] at hin
  · have hcols : r.map Prod.fst = geoLite2ViewColumns := hview r hr
    have hpop : List.lookup "population" r = none := by
      refine lookup_eq_none_of_not_mem r ?_
      rw [hcols]
      decide
    have hgdp : List.lookup "gdp" r = none := by
      refine lookup_eq_none_of_not_mem r ?_
      rw [hcols]
      decide
    subst hc
    exact ⟨hpop, hgdp⟩

/-- witness for C10_no_population_gdp at the one-row Berlin environment. -/
theorem C10_no_population_gdp_witness :
    (∀ r ∈ demoEnvCity.cityRows, isGeoLite2ViewRow r) ∧
    locate demoEnvCity ["Berlin"] = some demoBerlinCity ∧
    demoBerlinCity.population = none ∧ demoBerlinCity.gdp = none := by
  have hview : ∀ r ∈ demoEnvCity.cityRows, isGeoLite2ViewRow r := by
    intro r hr
    have : r = demoBerlinRow := by
      simpa [demoEnvCity] using hr
    rw [this]
    show demoBerlinRow.map Prod.fst = geoLite2ViewColumns
    rfl
  have h := C10_no_population_gdp demoEnvCity ["Berlin"] demoBerlinCity hview
    (by decide)
  exact ⟨hview, by decide, h.1, h.2⟩
